import Mathlib

/-!
Verification development for the WtoY pipeline core.

Shallow embedding of the orchestration and caching core of the repository:
the stage orchestrator with checkpoint/resume (src/core/pipeline.py,
src/core/checkpoint.py), the image batch scheduler
(src/image/batch_processor.py), the image-reuse cache matcher
(src/image/cache_matcher.py), the shorts scenario builder
(src/scenario/shorts_builder.py), and the CLI confirm gate.

Modelling conventions: Python dict-based pipeline state is an abstract type
sigma that step actions transform; a step either returns normally, raises
the user-abort signal PipelineAborted, or raises some other exception (in
the latter two cases the state carried is the state at the moment of the
raise, since Python steps mutate self.state in place).  Checkpoint files
are modelled as an optional record; file writes are modelled as succeeding
(the happy path of Checkpoint.save).  Python floats (durations,
similarities) are modelled as rationals; the claims proved about them are
exact-value facts.  Machine-level hashing (hashlib.md5) is implemented
bit-faithfully over byte lists with Nat arithmetic modulo 2 ^ 32.
-/

/-! ## Checkpoint store (src/core/checkpoint.py) -/

/-- Contents of a checkpoint file: models the JSON object written by
Checkpoint.save, holding last_completed_step and the serialized state. -/
structure CheckpointData (σ : Type) where
  last_completed_step : Nat
  state : σ
deriving DecidableEq

/-- Checkpoint.last_completed_step: 0 when no checkpoint file exists,
otherwise the stored value. -/
def lastCompletedStep {σ : Type} (cp : Option (CheckpointData σ)) : Nat :=
  match cp with
  | none => 0
  | some d => d.last_completed_step

/-! ## Stage orchestrator (src/core/pipeline.py) -/

/-- Result of executing one step function on the current pipeline state.
ok s: the step returned and the shared state is now s.
aborted s: the step raised PipelineAborted (a declined confirm gate);
s is the state at that moment (gates raise before mutating state).
err s: the step raised any other exception; s is the state at the moment
of the raise, including mutations the failing step already made. -/
inductive StepOutcome (σ : Type) where
  | ok (s : σ)
  | aborted (s : σ)
  | err (s : σ)
deriving DecidableEq

/-- How Pipeline.run terminated: normal completion of all steps, a clean
return after PipelineAborted, or re-raising the exception of step k. -/
inductive ExitKind where
  | completed
  | abortedExit
  | raised (step : Nat)
deriving DecidableEq

/-- Outcome tag recorded on an execution event. -/
inductive OutKind where
  | okK
  | abortK
  | errK
deriving DecidableEq

/-- Observable events of one Pipeline.run call: execution of a step
(with its outcome) and checkpoint saves with the recorded step number. -/
inductive Ev where
  | exec (k : Nat) (oc : OutKind)
  | save (last : Nat)
deriving DecidableEq

/-- Result of Pipeline.run: exit status, checkpoint file contents after the
run, in-memory state, and the event trace in chronological order. -/
structure RunResult (σ : Type) where
  exit : ExitKind
  cp : Option (CheckpointData σ)
  state : σ
  trace : List Ev
deriving DecidableEq

/-- The step loop of Pipeline.run over an explicit list of step numbers:
try the step; on normal return save a checkpoint with that step number and
continue; on PipelineAborted return cleanly without saving; on any other
exception save a checkpoint with step - 1 and re-raise. -/
def runFrom {σ : Type} (act : Nat → σ → StepOutcome σ) :
    List Nat → Option (CheckpointData σ) → σ → RunResult σ
  | [], cp, s => ⟨.completed, cp, s, []⟩
  | k :: rest, cp, s =>
    match act k s with
    | .ok s' =>
      let r := runFrom act rest (some ⟨k, s'⟩) s'
      ⟨r.exit, r.cp, r.state, .exec k .okK :: .save k :: r.trace⟩
    | .aborted s' => ⟨.abortedExit, cp, s', [.exec k .abortK]⟩
    | .err s' => ⟨.raised k, some ⟨k - 1, s'⟩, s', [.exec k .errK, .save (k - 1)]⟩

/-- The eleven step numbers of the pipeline, in order. -/
def stepNums : List Nat := (List.range 11).map (· + 1)

/-- Resume-point determination at the top of Pipeline.run: from_step = 0
means resume from checkpoint at last_completed_step + 1, otherwise the
caller-supplied step is used directly. -/
def resumePoint {σ : Type} (cp : Option (CheckpointData σ)) (from_step : Nat) : Nat :=
  if from_step = 0 then lastCompletedStep cp + 1 else from_step

/-- Pipeline.run: determine the resume point, then execute the steps of
stepNums that are not below it (the loop body does continue when
step_num < from_step). -/
def Pipeline.run {σ : Type} (act : Nat → σ → StepOutcome σ)
    (cp : Option (CheckpointData σ)) (s : σ) (from_step : Nat) : RunResult σ :=
  runFrom act (stepNums.filter (fun k => !decide (k < resumePoint cp from_step))) cp s

/-- The steps actually attempted during a run, in trace order. -/
def execSteps (t : List Ev) : List Nat :=
  t.filterMap (fun e => match e with | .exec k _ => some k | .save _ => none)

/-- The confirm-gated step shape shared by _step2_scenario and
_step11_upload: do the step's work, ask the confirmation collaborator, and
raise PipelineAborted when it declines (state is only committed on
approval). -/
def gatedStep {σ α : Type} (work : σ → α) (confirm : α → Bool)
    (commit : σ → α → σ) (s : σ) : StepOutcome σ :=
  let a := work s
  if confirm a then .ok (commit s a) else .aborted s

/-- Consecutive step numbers a, a+1, ..., a+n-1; the shape of the list of
steps a run actually iterates over (steps below the resume point are
skipped by the continue in the loop). -/
def stepsFrom : Nat → Nat → List Nat
  | _, 0 => []
  | a, n + 1 => a :: stepsFrom (a + 1) n

/-! ## Job id (src/core/checkpoint.py, Checkpoint.__init__)

The checkpoint key is hashlib.md5(url.encode()).hexdigest()[:12].
MD5 is implemented below over byte lists with Nat arithmetic mod 2 ^ 32. -/

/-- 2 ^ 32, the modulus of all MD5 register arithmetic. -/
def m32 : Nat := 4294967296

/-- 32-bit left rotation of x by r (0 <= r <= 32). -/
def rotl32 (x r : Nat) : Nat :=
  ((x % m32) * 2 ^ r) % m32 + (x % m32) / 2 ^ (32 - r)

/-- The 64 MD5 sine-derived round constants. -/
def md5K : List Nat :=
  [0xd76aa478, 0xe8c7b756, 0x242070db, 0xc1bdceee,
   0xf57c0faf, 0x4787c62a, 0xa8304613, 0xfd469501,
   0x698098d8, 0x8b44f7af, 0xffff5bb1, 0x895cd7be,
   0x6b901122, 0xfd987193, 0xa679438e, 0x49b40821,
   0xf61e2562, 0xc040b340, 0x265e5a51, 0xe9b6c7aa,
   0xd62f105d, 0x02441453, 0xd8a1e681, 0xe7d3fbc8,
   0x21e1cde6, 0xc33707d6, 0xf4d50d87, 0x455a14ed,
   0xa9e3e905, 0xfcefa3f8, 0x676f02d9, 0x8d2a4c8a,
   0xfffa3942, 0x8771f681, 0x6d9d6122, 0xfde5380c,
   0xa4beea44, 0x4bdecfa9, 0xf6bb4b60, 0xbebfbc70,
   0x289b7ec6, 0xeaa127fa, 0xd4ef3085, 0x04881d05,
   0xd9d4d039, 0xe6db99e5, 0x1fa27cf8, 0xc4ac5665,
   0xf4292244, 0x432aff97, 0xab9423a7, 0xfc93a039,
   0x655b59c3, 0x8f0ccc92, 0xffeff47d, 0x85845dd1,
   0x6fa87e4f, 0xfe2ce6e0, 0xa3014314, 0x4e0811a1,
   0xf7537e82, 0xbd3af235, 0x2ad7d2bb, 0xeb86d391]

/-- The 64 MD5 per-round shift amounts. -/
def md5S : List Nat :=
  [7, 12, 17, 22, 7, 12, 17, 22, 7, 12, 17, 22, 7, 12, 17, 22,
   5, 9, 14, 20, 5, 9, 14, 20, 5, 9, 14, 20, 5, 9, 14, 20,
   4, 11, 16, 23, 4, 11, 16, 23, 4, 11, 16, 23, 4, 11, 16, 23,
   6, 10, 15, 21, 6, 10, 15, 21, 6, 10, 15, 21, 6, 10, 15, 21]

/-- MD5 nonlinear function of round i on registers b, c, d. -/
def md5F (i b c d : Nat) : Nat :=
  if i < 16 then (b &&& c) ||| ((4294967295 ^^^ b) &&& d)
  else if i < 32 then (d &&& b) ||| ((4294967295 ^^^ d) &&& c)
  else if i < 48 then b ^^^ c ^^^ d
  else c ^^^ (b ||| (4294967295 ^^^ d))

/-- MD5 message-word index of round i. -/
def md5G (i : Nat) : Nat :=
  if i < 16 then i
  else if i < 32 then (5 * i + 1) % 16
  else if i < 48 then (3 * i + 5) % 16
  else (7 * i) % 16

/-- Little-endian 32-bit word g of a 64-byte chunk. -/
def chunkWord (chunk : List Nat) (g : Nat) : Nat :=
  chunk.getD (4 * g) 0 + 256 * chunk.getD (4 * g + 1) 0 +
    65536 * chunk.getD (4 * g + 2) 0 + 16777216 * chunk.getD (4 * g + 3) 0

/-- One MD5 round: rotate the four registers, mixing in round i. -/
def md5Round (chunk : List Nat) (st : Nat × Nat × Nat × Nat) (i : Nat) :
    Nat × Nat × Nat × Nat :=
  let a := st.1
  let b := st.2.1
  let c := st.2.2.1
  let d := st.2.2.2
  let f := (md5F i b c d + a + md5K.getD i 0 + chunkWord chunk (md5G i)) % m32
  (d, (b + rotl32 f (md5S.getD i 0)) % m32, b, c)

/-- Process one 64-byte chunk: 64 rounds, then add into the registers. -/
def md5Chunk (st : Nat × Nat × Nat × Nat) (chunk : List Nat) :
    Nat × Nat × Nat × Nat :=
  let r := (List.range 64).foldl (md5Round chunk) st
  ((st.1 + r.1) % m32, (st.2.1 + r.2.1) % m32,
   (st.2.2.1 + r.2.2.1) % m32, (st.2.2.2 + r.2.2.2) % m32)

/-- Little-endian 8-byte encoding of a 64-bit value. -/
def le8 (n : Nat) : List Nat :=
  [n % 256, n / 256 % 256, n / 65536 % 256, n / 16777216 % 256,
   n / 4294967296 % 256, n / 1099511627776 % 256,
   n / 281474976710656 % 256, n / 72057594037927936 % 256]

/-- MD5 padding: append 0x80, zero-pad to 56 mod 64, append the bit length
as a little-endian 64-bit value. -/
def md5Pad (msg : List Nat) : List Nat :=
  msg ++ [128] ++ List.replicate ((120 - (msg.length + 1) % 64) % 64) 0 ++
    le8 (8 * msg.length % 2 ^ 64)

/-- Little-endian 4-byte encoding of a 32-bit register. -/
def wordLE4 (w : Nat) : List Nat :=
  [w % 256, w / 256 % 256, w / 65536 % 256, w / 16777216 % 256]

/-- range(0, N, B) of Python for B >= 1: the start offsets of the slices
scenes[i:i+B] taken by generate_all, and of the 64-byte chunks of MD5. -/
def rangeStep (N B : Nat) : List Nat :=
  (List.range ((N + B - 1) / B)).map (· * B)

/-- The consecutive slices l[i:i+B] for i in range(0, len(l), B): the batch
partition of generate_all (src/image/batch_processor.py line 58). -/
def pyBatches {α : Type} (B : Nat) (l : List α) : List (List α) :=
  (rangeStep l.length B).map (fun i => (l.drop i).take B)

/-- The 16-byte MD5 digest of a byte list. -/
def md5Bytes (msg : List Nat) : List Nat :=
  let r := (pyBatches 64 (md5Pad msg)).foldl md5Chunk
    (0x67452301, 0xefcdab89, 0x98badcfe, 0x10325476)
  wordLE4 r.1 ++ wordLE4 r.2.1 ++ wordLE4 r.2.2.1 ++ wordLE4 r.2.2.2

/-- Lower-case hex digit for n in 0..15. -/
def hexDigitChar (n : Nat) : Char :=
  if n < 10 then Char.ofNat (48 + n) else Char.ofNat (87 + n)

/-- Lower-case hex rendering of a byte list, two digits per byte; models
hashlib's hexdigest(). -/
def hexOfBytes : List Nat → List Char
  | [] => []
  | b :: bs => hexDigitChar (b % 256 / 16) :: hexDigitChar (b % 16) :: hexOfBytes bs

/-- hashlib.md5(msg).hexdigest() over a byte list. -/
def md5Hex (msg : List Nat) : List Char := hexOfBytes (md5Bytes msg)

/-- Checkpoint.__init__ key derivation:
hashlib.md5(url.encode()).hexdigest()[:12]. -/
def jobId (url : String) : String :=
  String.mk ((md5Hex (url.toUTF8.toList.map UInt8.toNat)).take 12)

/-! ## Shorts scenario builder (src/scenario/shorts_builder.py) -/

/-- One scene record as produced by the scenario generator.  The stage tag
and duration are optional to model the dict lookups s.get("stage", "core")
and s.get("duration_sec", 3.0) with their defaults. -/
structure Scene where
  scene_id : Nat
  stage : Option String
  narration : String
  duration_sec : Option ℚ
  image_prompt : String
deriving DecidableEq

/-- s.get("stage", "core"). -/
def stageOf (s : Scene) : String := s.stage.getD "core"

/-- s.get("duration_sec", 3.0). -/
def durOf (s : Scene) : ℚ := s.duration_sec.getD 3

/-- The fixed stage iteration order of _select_scenes. -/
def stageOrder : List String := ["hook", "problem", "core", "twist", "cta"]

/-- _SHORTS_STAGE_BUDGET.get(stage, 2). -/
def stageBudget (st : String) : Nat :=
  if st = "hook" then 5
  else if st = "problem" then 3
  else if st = "core" then 6
  else if st = "twist" then 3
  else if st = "cta" then 2
  else 2

/-- _select_scenes: group scenes by stage tag keeping original order, sort
each group ascending by duration (Python list.sort is stable; any stable
ascending sort yields the same list, here Mathlib insertionSort), then take
each stage's budget in the fixed stage order. -/
def selectScenes (scenes : List Scene) : List Scene :=
  stageOrder.flatMap (fun st =>
    ((scenes.filter (fun s => decide (stageOf s = st))).insertionSort
        (fun a b => durOf a ≤ durOf b)).take (stageBudget st))

/-- _cap_to_duration: keep a prefix of the scenes whose running duration
total never exceeds max_sec; stop just before the first overflow. -/
def capToDuration (maxSec : ℚ) : List Scene → ℚ → List Scene
  | [], _ => []
  | s :: rest, total =>
    if maxSec < total + durOf s then []
    else s :: capToDuration maxSec rest (total + durOf s)

/-- _reassign_ids starting at enumerate index i: copy each scene and set
scene_id to the 1-based position. -/
def reassignFrom (i : Nat) : List Scene → List Scene
  | [] => []
  | s :: rest => { s with scene_id := i + 1 } :: reassignFrom (i + 1) rest

/-- _reassign_ids: scene_id := position + 1 for every scene. -/
def reassignIds (scenes : List Scene) : List Scene := reassignFrom 0 scenes

/-- build_shorts_scenario: empty input short-circuits to []; otherwise
select by stage budgets, cap to config.SHORTS_DURATION_SEC = 60, and
renumber scene_id from 1. -/
def buildShortsScenario (scenes : List Scene) : List Scene :=
  if scenes = [] then []
  else reassignIds (capToDuration 60 (selectScenes scenes) 0)

/-! ## Cache matcher (src/image/cache_matcher.py) -/

/-- The punctuation deleted by _STOP_CHARS before splitting
(".,;:()[]" plus the two quote characters). -/
def stopChars : List Char :=
  ['.', ',', ';', ':', '(', ')', '[', ']', Char.ofNat 34, Char.ofNat 39]

/-- Whitespace for str.split() with no argument (ASCII fragment of the
Python whitespace class). -/
def pyIsSpaceChar (c : Char) : Bool :=
  decide (c = ' ') || decide (c = Char.ofNat 9) || decide (c = Char.ofNat 10) ||
    decide (c = Char.ofNat 13) || decide (c = Char.ofNat 11) || decide (c = Char.ofNat 12)

/-- str.split() with no separator: maximal runs of non-whitespace, empties
discarded.  acc is the current word being read, in reverse. -/
def splitWsAux : List Char → List Char → List (List Char)
  | [], acc => if acc = [] then [] else [acc.reverse]
  | c :: rest, acc =>
    if pyIsSpaceChar c then
      if acc = [] then splitWsAux rest []
      else acc.reverse :: splitWsAux rest []
    else splitWsAux rest (c :: acc)

/-- _tokenize: delete stop characters, split on whitespace, drop tokens of
length <= 2, lower-case the rest, and collect the set. -/
def tokenize (text : String) : Finset String :=
  ((((splitWsAux (text.data.filter (fun c => !decide (c ∈ stopChars))) []).filter
      (fun w => decide (2 < w.length))).map
      (fun w => String.mk (w.map Char.toLower))).toFinset)

/-- _jaccard: 0 when either token set is empty, otherwise intersection size
over union size (the inner union > 0 guard of the source is kept). -/
def jaccard (a b : Finset String) : ℚ :=
  if a = ∅ ∨ b = ∅ then 0
  else if 0 < (a ∪ b).card then ((a ∩ b).card : ℚ) / ((a ∪ b).card : ℚ)
  else 0

/-- One row of the image_cache table as seen by find_similar: the stored
prompt, the stored artifact path, and whether Path(image_path).exists() at
the time of the call. -/
structure CacheRow where
  prompt : String
  image_path : String
  onDisk : Bool
deriving DecidableEq

/-- One element of the list find_similar returns. -/
structure SimHit where
  similarity : ℚ
  image_path : String
  prompt : String
deriving DecidableEq

/-- The append loop of find_similar over the fetched rows: skip rows whose
artifact is missing, compute the Jaccard similarity against the query
token set, and keep rows at or above the threshold, in row order. -/
def matchRows (pw : Finset String) (threshold : ℚ) (rows : List CacheRow) : List SimHit :=
  rows.filterMap (fun row =>
    if row.onDisk then
      if threshold ≤ jaccard pw (tokenize row.prompt) then
        some ⟨jaccard pw (tokenize row.prompt), row.image_path, row.prompt⟩
      else none
    else none)

/-- results.sort(key=similarity, reverse=True): stable descending sort by
similarity (Python sorts are stable; any stable descending sort yields the
same list, here Mathlib insertionSort with the reversed comparison). -/
def sortBySimDesc (l : List SimHit) : List SimHit :=
  l.insertionSort (fun a b => b.similarity ≤ a.similarity)

instance : IsTotal SimHit (fun a b => b.similarity ≤ a.similarity) :=
  ⟨fun a b => le_total b.similarity a.similarity⟩

instance : IsTrans SimHit (fun a b => b.similarity ≤ a.similarity) :=
  ⟨fun _ _ _ h1 h2 => le_trans h2 h1⟩

/-- find_similar over the fetched rows (the SELECT returns the table
ordered by created_at DESC; rows is that list): filter, sort by descending
similarity, truncate to limit. -/
def findSimilar (rows : List CacheRow) (prompt : String) (threshold : ℚ)
    (limit : Nat) : List SimHit :=
  (sortBySimDesc (matchRows (tokenize prompt) threshold rows)).take limit

/-! ## Batch scheduler (src/image/batch_processor.py) -/

/-- The per-scene input of generate_all: the scene_id and prompt fields the
batch processor reads. -/
structure GenScene where
  scene_id : Nat
  image_prompt : String
deriving DecidableEq

/-- Engine modes: dalle3 dispatches batches to the thread pool
(_process_parallel), any other IMAGE_ENGINE value runs _process_sequential. -/
inductive EngineMode where
  | dalle3
  | sd
deriving DecidableEq

/-- Behaviour of _generate_one on one scene: Except.error models an escaped
exception; Except.ok (some p) a generated or reused artifact path; and
Except.ok none the engine reporting failure by returning None. -/
def GenBehaviour (P : Type) : Type := GenScene → Except Unit (Option P)

/-- python dict lookup in the {scene_id: path} result mapping (scene ids in
a batch are unique, so first-match lookup agrees with dict semantics). -/
def lookupId {P : Type} (k : Nat) : List (Nat × P) → Option P
  | [] => none
  | (k', v) :: rest => if k' = k then some v else lookupId k rest

/-- _process_parallel: the as_completed loop in completion order
(order is the completion order of the futures, a permutation of the batch).
A per-item exception is caught and logged, a None path is logged; both are
omitted from the result mapping. -/
def processParallel {P : Type} (gen : GenBehaviour P) : List GenScene → List (Nat × P)
  | [] => []
  | s :: rest =>
    match gen s with
    | .ok (some p) => (s.scene_id, p) :: processParallel gen rest
    | .ok none => processParallel gen rest
    | .error _ => processParallel gen rest

/-- _process_sequential: plain loop with no try/except around
_generate_one, so an escaped exception propagates and aborts the batch;
a None path is logged and omitted. -/
def processSequential {P : Type} (gen : GenBehaviour P) :
    List GenScene → Except Unit (List (Nat × P))
  | [] => .ok []
  | s :: rest =>
    match gen s with
    | .error e => .error e
    | .ok (some p) => (processSequential gen rest).map (fun m => (s.scene_id, p) :: m)
    | .ok none => processSequential gen rest

/-- generate_all: partition into pyBatches of size IMAGE_BATCH_SIZE, then
process each batch with the engine-selected strategy, merging results;
order gives each parallel batch's completion order. -/
def generateAll {P : Type} (mode : EngineMode) (B : Nat) (gen : GenBehaviour P)
    (order : List GenScene → List GenScene) (scenes : List GenScene) :
    Except Unit (List (Nat × P)) :=
  (pyBatches B scenes).foldlM
    (fun acc batch =>
      match mode with
      | .dalle3 => .ok (acc ++ processParallel gen (order batch))
      | .sd => (processSequential gen batch).map (fun m => acc ++ m))
    []

/-! ## CLI confirm gate (src/core/pipeline.py, Pipeline._cli_confirm) -/

/-- str.strip() on the raw input line (ASCII fragment of the Python
whitespace class). -/
def pyStrip (l : List Char) : List Char :=
  ((l.dropWhile pyIsSpaceChar).reverse.dropWhile pyIsSpaceChar).reverse

/-- str.lower() (ASCII model). -/
def pyLower (l : List Char) : List Char := l.map Char.toLower

/-- _cli_confirm decision on the raw input line:
ans = input(...).strip().lower(); return ans in ("y", "yes"). -/
def cliConfirmAnswer (input : List Char) : Bool :=
  let ans := pyLower (pyStrip input)
  decide (ans = ['y']) || decide (ans = ['y', 'e', 's'])

/-! ## Concrete instances used in the closed corollaries -/

/-- Example step behaviour: every step succeeds, counting successes. -/
def exActOk : Nat → Nat → StepOutcome Nat := fun _ s => .ok (s + 1)

/-- Example step behaviour: step 3 mutates the state and then raises;
every other step succeeds. -/
def exActErr3 : Nat → Nat → StepOutcome Nat :=
  fun k s => if k = 3 then .err (s + 100) else .ok (s + 1)

/-- Example step behaviour: the confirm gate of step 2 is declined;
every other step succeeds. -/
def exActAbort2 : Nat → Nat → StepOutcome Nat :=
  fun k s => if k = 2 then .aborted s else .ok (s + 1)

/-- Example long-form scenario for the shorts builder: a core scene with
scene_id 1 followed by a hook scene with scene_id 2. -/
def exScenesC3 : List Scene :=
  [⟨1, some "core", "A", some 3, "pa"⟩, ⟨2, some "hook", "B", some 3, "pb"⟩]

/-- Example batch of two scenes. -/
def exBatch : List GenScene := [⟨1, "p1"⟩, ⟨2, "p2"⟩]

/-- Example generation behaviour: scene 1 raises an exception, every other
scene succeeds with artifact 7 (paths modelled as numbers). -/
def exGenFail1 : GenBehaviour Nat :=
  fun s => if s.scene_id = 1 then .error () else .ok (some 7)

/-- Example generation behaviour: scene 1 fails by returning None, every
other scene succeeds with artifact 7. -/
def exGenNone1 : GenBehaviour Nat :=
  fun s => if s.scene_id = 1 then .ok none else .ok (some 7)

/-- Example cache rows as fetched by find_similar (newest first): an
unrelated prompt, an exact match, and an entry whose file is missing. -/
def exRows : List CacheRow :=
  [⟨"blue car", "img3", true⟩,
   ⟨"red bicycle on street", "img1", true⟩,
   ⟨"red bicycle at night", "img2", false⟩]

/-! ## Helper lemmas: orchestrator traces -/

@[simp]
theorem execSteps_nil : execSteps [] = [] := rfl

@[simp]
theorem execSteps_cons_exec (k : Nat) (oc : OutKind) (t : List Ev) :
    execSteps (.exec k oc :: t) = k :: execSteps t := rfl

@[simp]
theorem execSteps_cons_save (j : Nat) (t : List Ev) :
    execSteps (.save j :: t) = execSteps t := rfl

theorem resumePoint_zero {σ : Type} (cp : Option (CheckpointData σ)) :
    resumePoint cp 0 = lastCompletedStep cp + 1 := rfl

theorem resumePoint_pos {σ : Type} (cp : Option (CheckpointData σ)) (f : Nat) :
    1 ≤ resumePoint cp f := by
  unfold resumePoint
  split
  · exact Nat.succ_le_succ (Nat.zero_le _)
  · omega

theorem stepNums_filter_eq (fs : Nat) (h : 1 ≤ fs) :
    stepNums.filter (fun k => !decide (k < fs)) = stepsFrom fs (12 - fs) := by
  rcases le_or_lt fs 12 with h12 | h12
  · interval_cases fs <;> decide
  · have h0 : 12 - fs = 0 := by omega
    rw [h0]
    have : ∀ k ∈ stepNums, ¬ (!decide (k < fs)) = true := by
      intro k hk
      have : k ≤ 11 := by
        simp only [stepNums, List.mem_map, List.mem_range] at hk
        omega
      simp only [Bool.not_eq_true', Bool.not_eq_false, decide_eq_true_eq]
      omega
    simp only [stepsFrom]
    exact List.filter_eq_nil_iff.mpr this

theorem run_eq_stepsFrom {σ : Type} (act : Nat → σ → StepOutcome σ)
    (cp : Option (CheckpointData σ)) (s : σ) (f : Nat) :
    Pipeline.run act cp s f =
      runFrom act (stepsFrom (resumePoint cp f) (12 - resumePoint cp f)) cp s := by
  unfold Pipeline.run
  rw [stepNums_filter_eq _ (resumePoint_pos cp f)]

theorem mem_stepsFrom {k : Nat} : ∀ {a n : Nat}, k ∈ stepsFrom a n ↔ a ≤ k ∧ k < a + n := by
  intro a n
  induction n generalizing a with
  | zero => simp [stepsFrom]
  | succ n ih =>
    simp only [stepsFrom, List.mem_cons, ih]
    omega

theorem chain_stepsFrom : ∀ (n a : Nat), List.Chain' (· < ·) (stepsFrom a n) := by
  intro n
  induction n with
  | zero => intro a; simp [stepsFrom]
  | succ n ih =>
    intro a
    cases n with
    | zero => simp [stepsFrom]
    | succ m =>
      refine List.Chain'.cons ?_ (ih (a + 1))
      exact Nat.lt_succ_self a

theorem runFrom_completed {σ : Type} (act : Nat → σ → StepOutcome σ) :
    ∀ (L : List Nat) (cp : Option (CheckpointData σ)) (s : σ),
      (runFrom act L cp s).exit = .completed →
      execSteps (runFrom act L cp s).trace = L := by
  intro L
  induction L with
  | nil => intro cp s _; simp [runFrom]
  | cons k rest ih =>
    intro cp s hexit
    cases hact : act k s with
    | ok s' =>
      simp only [runFrom, hact] at hexit ⊢
      simpa using ih _ _ hexit
    | aborted s' => simp [runFrom, hact] at hexit
    | err s' => simp [runFrom, hact] at hexit

theorem runFrom_exec_take {σ : Type} (act : Nat → σ → StepOutcome σ) :
    ∀ (L : List Nat) (cp : Option (CheckpointData σ)) (s : σ),
      ∃ m, execSteps (runFrom act L cp s).trace = L.take m := by
  intro L
  induction L with
  | nil => intro cp s; exact ⟨0, by simp [runFrom]⟩
  | cons k rest ih =>
    intro cp s
    cases hact : act k s with
    | ok s' =>
      obtain ⟨m, hm⟩ := ih (some ⟨k, s'⟩) s'
      exact ⟨m + 1, by simp [runFrom, hact, hm]⟩
    | aborted s' => exact ⟨1, by simp [runFrom, hact]⟩
    | err s' => exact ⟨1, by simp [runFrom, hact]⟩

theorem runFrom_head {σ : Type} (act : Nat → σ → StepOutcome σ)
    (k : Nat) (rest : List Nat) (cp : Option (CheckpointData σ)) (s : σ) :
    (execSteps (runFrom act (k :: rest) cp s).trace).head? = some k := by
  cases hact : act k s <;> simp [runFrom, hact]

theorem runFrom_okK_save {σ : Type} (act : Nat → σ → StepOutcome σ) :
    ∀ (L : List Nat) (cp : Option (CheckpointData σ)) (s : σ) (i k : Nat),
      (runFrom act L cp s).trace[i]? = some (.exec k .okK) →
      (runFrom act L cp s).trace[i + 1]? = some (.save k) := by
  intro L
  induction L with
  | nil => intro cp s i k h; simp [runFrom] at h
  | cons k' rest ih =>
    intro cp s i k h
    cases hact : act k' s with
    | ok s' =>
      simp only [runFrom, hact] at h ⊢
      match i, h with
      | 0, h =>
        simp at h ⊢
        simp [h]
      | 1, h => simp at h
      | (i + 2), h =>
        simp only [List.getElem?_cons_succ] at h ⊢
        exact ih _ _ i k h
    | aborted s' =>
      simp only [runFrom, hact] at h ⊢
      match i, h with
      | 0, h => simp at h
    | err s' =>
      simp only [runFrom, hact] at h ⊢
      match i, h with
      | 0, h => simp at h
      | 1, h => simp at h

theorem runFrom_exec_mem {σ : Type} (act : Nat → σ → StepOutcome σ) :
    ∀ (L : List Nat) (cp : Option (CheckpointData σ)) (s : σ) (k : Nat) (oc : OutKind),
      Ev.exec k oc ∈ (runFrom act L cp s).trace → k ∈ L := by
  intro L
  induction L with
  | nil => intro cp s k oc h; simp [runFrom] at h
  | cons k' rest ih =>
    intro cp s k oc h
    cases hact : act k' s with
    | ok s' =>
      simp only [runFrom, hact, List.mem_cons] at h
      rcases h with h | h | h
      · cases h; exact List.mem_cons_self _ _
      · cases h
      · exact List.mem_cons_of_mem _ (ih _ _ _ _ h)
    | aborted s' =>
      simp only [runFrom, hact, List.mem_cons] at h
      rcases h with h | h
      · cases h; exact List.mem_cons_self _ _
      · simp at h
    | err s' =>
      simp only [runFrom, hact, List.mem_cons] at h
      rcases h with h | h | h
      · cases h; exact List.mem_cons_self _ _
      · cases h
      · simp at h

theorem runFrom_raised {σ : Type} (act : Nat → σ → StepOutcome σ) :
    ∀ (L : List Nat) (cp : Option (CheckpointData σ)) (s : σ) (k : Nat),
      (runFrom act L cp s).exit = .raised k →
      ∃ (t : List Ev) (sPre : σ),
        (runFrom act L cp s).cp = some ⟨k - 1, (runFrom act L cp s).state⟩ ∧
        act k sPre = .err (runFrom act L cp s).state ∧
        (runFrom act L cp s).trace = t ++ [.exec k .errK, .save (k - 1)] ∧
        k ∈ L := by
  intro L
  induction L with
  | nil => intro cp s k h; simp [runFrom] at h
  | cons k' rest ih =>
    intro cp s k h
    cases hact : act k' s with
    | ok s' =>
      simp only [runFrom, hact] at h ⊢
      obtain ⟨t, sPre, h1, h2, h3, h4⟩ := ih (some ⟨k', s'⟩) s' k h
      exact ⟨.exec k' .okK :: .save k' :: t, sPre, h1, h2, by simp [h3],
        List.mem_cons_of_mem _ h4⟩
    | aborted s' => simp [runFrom, hact] at h
    | err s' =>
      simp only [runFrom, hact] at h ⊢
      cases h
      exact ⟨[], s, rfl, hact, by simp, List.mem_cons_self _ _⟩

theorem runFrom_abort {σ : Type} (act : Nat → σ → StepOutcome σ) :
    ∀ (n a : Nat) (cp : Option (CheckpointData σ)) (s : σ) (k : Nat),
      Ev.exec k .abortK ∈ (runFrom act (stepsFrom a n) cp s).trace →
      (runFrom act (stepsFrom a n) cp s).exit = .abortedExit ∧
      (∃ t, (runFrom act (stepsFrom a n) cp s).trace = t ++ [.exec k .abortK]) ∧
      (∀ j, Ev.save j ∈ (runFrom act (stepsFrom a n) cp s).trace → a ≤ j ∧ j < k) ∧
      ((k = a ∧ (runFrom act (stepsFrom a n) cp s).cp = cp) ∨
        (a < k ∧ ∃ s', (runFrom act (stepsFrom a n) cp s).cp = some ⟨k - 1, s'⟩)) := by
  intro n
  induction n with
  | zero => intro a cp s k h; simp [stepsFrom, runFrom] at h
  | succ n ih =>
    intro a cp s k h
    cases hact : act a s with
    | ok s' =>
      simp only [stepsFrom, runFrom, hact] at h ⊢
      have hmem : Ev.exec k .abortK ∈
          (runFrom act (stepsFrom (a + 1) n) (some ⟨a, s'⟩) s').trace := by
        simp only [List.mem_cons] at h
        rcases h with h | h | h
        · cases h
        · cases h
        · exact h
      obtain ⟨hexit, ⟨t, ht⟩, hsaves, hcp⟩ := ih (a + 1) (some ⟨a, s'⟩) s' k hmem
      have hak : a < k := by
        rcases hcp with ⟨hk, _⟩ | ⟨hk, _⟩
        · omega
        · omega
      refine ⟨hexit, ⟨.exec a .okK :: .save a :: t, by simp [ht]⟩, ?_, ?_⟩
      · intro j hj
        simp only [List.mem_cons] at hj
        rcases hj with hj | hj | hj
        · cases hj
        · cases hj; exact ⟨le_refl _, hak⟩
        · have := hsaves j hj
          omega
      · rcases hcp with ⟨hk, hcpeq⟩ | ⟨hk, s'', hcpeq⟩
        · refine .inr ⟨hak, s', ?_⟩
          rw [hcpeq]
          congr 1
          simp
          omega
        · exact .inr ⟨hak, s'', hcpeq⟩
    | aborted s' =>
      have htr : runFrom act (stepsFrom a (n + 1)) cp s =
          ⟨.abortedExit, cp, s', [.exec a .abortK]⟩ := by
        simp [stepsFrom, runFrom, hact]
      rw [htr] at h ⊢
      have hk : k = a := by simpa using h
      subst hk
      refine ⟨rfl, ⟨[], rfl⟩, ?_, .inl ⟨rfl, rfl⟩⟩
      intro j hj
      simp at hj
    | err s' =>
      simp only [stepsFrom, runFrom, hact] at h ⊢
      simp at h

/-! ## Helper lemmas: job id length -/

theorem wordLE4_length (w : Nat) : (wordLE4 w).length = 4 := rfl

theorem md5Bytes_length (msg : List Nat) : (md5Bytes msg).length = 16 := by
  unfold md5Bytes
  simp [wordLE4_length]

theorem hexOfBytes_length : ∀ l : List Nat, (hexOfBytes l).length = 2 * l.length := by
  intro l
  induction l with
  | nil => rfl
  | cons b bs ih =>
    simp only [hexOfBytes, List.length_cons, ih]
    omega

theorem stringMk_length (l : List Char) : (String.mk l).length = l.length := rfl

theorem jobId_length (url : String) : (jobId url).length = 12 := by
  unfold jobId
  rw [stringMk_length, List.length_take]
  unfold md5Hex
  rw [hexOfBytes_length, md5Bytes_length]
  omega

/-! ## Claim theorems: orchestrator -/

/-- Claim C1 (rollback on stage failure): whenever a run re-raises the
exception of stage k, the checkpoint recorded at that moment has
last_completed_step = k - 1 (k is one of the stages 1..11, and the final
event of the run is exactly that rollback save), so a subsequent run with
no explicit start step resumes at stage k and re-executes it first. -/
theorem rollback_on_stage_failure {σ : Type} (act : Nat → σ → StepOutcome σ)
    (cp : Option (CheckpointData σ)) (s : σ) (f k : Nat)
    (h : (Pipeline.run act cp s f).exit = .raised k) :
    lastCompletedStep (Pipeline.run act cp s f).cp = k - 1 ∧
    1 ≤ k ∧ k ≤ 11 ∧
    (Pipeline.run act cp s f).trace.getLast? = some (.save (k - 1)) ∧
    resumePoint (Pipeline.run act cp s f).cp 0 = k ∧
    ∀ (act₂ : Nat → σ → StepOutcome σ) (s₂ : σ),
      (execSteps (Pipeline.run act₂ (Pipeline.run act cp s f).cp s₂ 0).trace).head? =
        some k := by
  rw [run_eq_stepsFrom] at h ⊢
  obtain ⟨t, sPre, hcp, hact, htr, hkmem⟩ := runFrom_raised act _ cp s k h
  have hbounds := mem_stepsFrom.mp hkmem
  have hk1 : 1 ≤ k := by
    have := resumePoint_pos cp f
    omega
  have hk11 : k ≤ 11 := by omega
  have hlast : lastCompletedStep
      (runFrom act (stepsFrom (resumePoint cp f) (12 - resumePoint cp f)) cp s).cp
        = k - 1 := by
    rw [hcp]
    rfl
  have hrp : resumePoint
      (runFrom act (stepsFrom (resumePoint cp f) (12 - resumePoint cp f)) cp s).cp 0
        = k := by
    rw [resumePoint_zero, hlast]
    omega
  refine ⟨hlast, hk1, hk11, ?_, hrp, ?_⟩
  · rw [htr]
    rw [show t ++ [Ev.exec k .errK, Ev.save (k - 1)] =
      (t ++ [Ev.exec k .errK]) ++ [Ev.save (k - 1)] by simp]
    exact List.getLast?_concat _
  · intro act₂ s₂
    rw [run_eq_stepsFrom, hrp]
    rw [show 12 - k = (11 - k) + 1 by omega, stepsFrom]
    exact runFrom_head act₂ k _ _ s₂

/-- Closed instance of rollback_on_stage_failure: with exActErr3 (stage 3
mutates and raises) the run re-raises at stage 3 and the recorded
last_completed_step is 2. -/
theorem rollback_on_stage_failure_witness :
    (Pipeline.run exActErr3 (none : Option (CheckpointData Nat)) 0 0).exit = .raised 3 ∧
    lastCompletedStep (Pipeline.run exActErr3 (none : Option (CheckpointData Nat)) 0 0).cp
      = 2 :=
  ⟨by decide, (rollback_on_stage_failure exActErr3 none 0 0 3 (by decide)).1⟩

theorem resumePoint_of_ne {σ : Type} (cp : Option (CheckpointData σ)) {f : Nat}
    (h : ¬ f = 0) : resumePoint cp f = f := by
  unfold resumePoint
  rw [if_neg h]

/-- Claim C2 (resume-point determination): the checkpoint key is a
deterministic 12-character hash of the URL; a run with from_step = 0
behaves exactly like a run started at last_completed_step + 1; a run with
an explicit start step 1..11 attempts exactly that step first; every
attempted step is at or above the resume point and at most 11, in strictly
increasing order; a completed run attempts precisely the steps from the
resume point through 11; and immediately after every successful step k the
next event is the checkpoint save recording k, before any later step. -/
theorem resume_point_determination :
    (∀ url : String, (jobId url).length = 12) ∧
    (∀ u v : String, u = v → jobId u = jobId v) ∧
    (∀ (σ : Type) (act : Nat → σ → StepOutcome σ) (cp : Option (CheckpointData σ)) (s : σ),
      Pipeline.run act cp s 0 = Pipeline.run act cp s (lastCompletedStep cp + 1)) ∧
    (∀ (σ : Type) (act : Nat → σ → StepOutcome σ) (cp : Option (CheckpointData σ))
      (s : σ) (f : Nat), 1 ≤ f → f ≤ 11 →
      (execSteps (Pipeline.run act cp s f).trace).head? = some f) ∧
    (∀ (σ : Type) (act : Nat → σ → StepOutcome σ) (cp : Option (CheckpointData σ))
      (s : σ) (f k : Nat), k ∈ execSteps (Pipeline.run act cp s f).trace →
      resumePoint cp f ≤ k ∧ k ≤ 11) ∧
    (∀ (σ : Type) (act : Nat → σ → StepOutcome σ) (cp : Option (CheckpointData σ))
      (s : σ) (f : Nat),
      List.Chain' (· < ·) (execSteps (Pipeline.run act cp s f).trace)) ∧
    (∀ (σ : Type) (act : Nat → σ → StepOutcome σ) (cp : Option (CheckpointData σ))
      (s : σ) (f : Nat), (Pipeline.run act cp s f).exit = .completed →
      execSteps (Pipeline.run act cp s f).trace =
        stepsFrom (resumePoint cp f) (12 - resumePoint cp f)) ∧
    (∀ (σ : Type) (act : Nat → σ → StepOutcome σ) (cp : Option (CheckpointData σ))
      (s : σ) (f i k : Nat),
      (Pipeline.run act cp s f).trace[i]? = some (.exec k .okK) →
      (Pipeline.run act cp s f).trace[i + 1]? = some (.save k)) := by
  refine ⟨jobId_length, ?_, ?_, ?_, ?_, ?_, ?_, ?_⟩
  · intro u v h
    rw [h]
  · intro σ act cp s
    unfold Pipeline.run
    have h1 : resumePoint cp 0 = lastCompletedStep cp + 1 := resumePoint_zero cp
    have h2 : resumePoint cp (lastCompletedStep cp + 1) = lastCompletedStep cp + 1 :=
      resumePoint_of_ne cp (Nat.succ_ne_zero _)
    rw [h1, h2]
  · intro σ act cp s f hf1 hf11
    rw [run_eq_stepsFrom, resumePoint_of_ne cp (by omega)]
    rw [show 12 - f = (11 - f) + 1 by omega, stepsFrom]
    exact runFrom_head act f _ cp s
  · intro σ act cp s f k hk
    rw [run_eq_stepsFrom] at hk
    obtain ⟨m, hm⟩ := runFrom_exec_take act
      (stepsFrom (resumePoint cp f) (12 - resumePoint cp f)) cp s
    rw [hm] at hk
    have hkL := List.take_subset m _ hk
    have hb := mem_stepsFrom.mp hkL
    exact ⟨hb.1, by omega⟩
  · intro σ act cp s f
    rw [run_eq_stepsFrom]
    obtain ⟨m, hm⟩ := runFrom_exec_take act
      (stepsFrom (resumePoint cp f) (12 - resumePoint cp f)) cp s
    rw [hm]
    exact (chain_stepsFrom _ _).take m
  · intro σ act cp s f h
    rw [run_eq_stepsFrom] at h ⊢
    exact runFrom_completed act _ cp s h
  · intro σ act cp s f i k h
    rw [run_eq_stepsFrom] at h ⊢
    exact runFrom_okK_save act _ cp s i k h

/-- Closed instance of resume_point_determination: the example URL gets a
12-character job id; with a checkpoint at step 4 and all steps succeeding,
an explicit start at 5 attempts step 5 first, and the auto-resumed run
completes attempting exactly steps 5 through 11. -/
theorem resume_point_determination_witness :
    (jobId "https://example.com/a").length = 12 ∧
    (execSteps (Pipeline.run exActOk (some ⟨4, 0⟩ : Option (CheckpointData Nat)) 0 5).trace).head?
      = some 5 ∧
    execSteps (Pipeline.run exActOk (some ⟨4, 0⟩ : Option (CheckpointData Nat)) 0 0).trace
      = stepsFrom 5 7 :=
  ⟨resume_point_determination.1 _,
   resume_point_determination.2.2.2.1 Nat exActOk (some ⟨4, 0⟩) 0 5 (by decide) (by decide),
   resume_point_determination.2.2.2.2.2.2.1 Nat exActOk (some ⟨4, 0⟩) 0 0 (by decide)⟩

/-- Claim C5 (abort semantics): a declined confirm gate makes gatedStep
produce the PipelineAborted outcome, and whenever a run's trace shows a
step k aborting, the run returned normally with the aborted status, the
abort is the final event (no save for step k or any later step is
performed: every save in the trace records a step below k), the checkpoint
is either untouched (abort at the resume point itself) or the one saved by
the last successful stage k - 1, and for an auto-resumed run (from_step 0)
last_completed_step after the run is exactly k - 1. -/
theorem abort_semantics {σ : Type} (act : Nat → σ → StepOutcome σ)
    (cp : Option (CheckpointData σ)) (s : σ) (f k : Nat)
    (h : Ev.exec k .abortK ∈ (Pipeline.run act cp s f).trace) :
    (Pipeline.run act cp s f).exit = .abortedExit ∧
    (∃ t, (Pipeline.run act cp s f).trace = t ++ [.exec k .abortK]) ∧
    (∀ j, Ev.save j ∈ (Pipeline.run act cp s f).trace → j < k) ∧
    ((k = resumePoint cp f ∧ (Pipeline.run act cp s f).cp = cp) ∨
      (resumePoint cp f < k ∧
        ∃ s', (Pipeline.run act cp s f).cp = some ⟨k - 1, s'⟩)) ∧
    (f = 0 → lastCompletedStep (Pipeline.run act cp s f).cp = k - 1) ∧
    (∀ (α : Type) (work : σ → α) (confirm : α → Bool) (commit : σ → α → σ) (s₀ : σ),
      confirm (work s₀) = false → gatedStep work confirm commit s₀ = .aborted s₀) := by
  rw [run_eq_stepsFrom] at h ⊢
  obtain ⟨hexit, hterm, hsaves, hcp⟩ :=
    runFrom_abort act (12 - resumePoint cp f) (resumePoint cp f) cp s k h
  refine ⟨hexit, hterm, fun j hj => (hsaves j hj).2, hcp, ?_, ?_⟩
  · intro hf
    subst hf
    rcases hcp with ⟨hk, hcpeq⟩ | ⟨hk, s', hcpeq⟩
    · rw [hcpeq]
      rw [resumePoint_zero] at hk
      omega
    · rw [hcpeq]
      rfl
  · intro α work confirm commit s₀ hconf
    simp [gatedStep, hconf]

/-- Closed instance of abort_semantics: with exActAbort2 the confirm gate
of stage 2 declines; the run returns the aborted status and the checkpoint
still records step 1. -/
theorem abort_semantics_witness :
    Ev.exec 2 .abortK ∈ (Pipeline.run exActAbort2 (none : Option (CheckpointData Nat)) 0 0).trace ∧
    (Pipeline.run exActAbort2 (none : Option (CheckpointData Nat)) 0 0).exit = .abortedExit ∧
    lastCompletedStep (Pipeline.run exActAbort2 (none : Option (CheckpointData Nat)) 0 0).cp
      = 1 :=
  ⟨by decide,
   (abort_semantics exActAbort2 none 0 0 2 (by decide)).1,
   (abort_semantics exActAbort2 none 0 0 2 (by decide)).2.2.2.2.1 rfl⟩

/-- Claim C10 (state is not rolled back on failure, only the counter):
whenever a run re-raises at stage k, the checkpoint written by the failure
handler pairs the rolled-back counter k - 1 with the state exactly as the
failing action left it at the moment of the exception (the err payload of
act k), not with the state from before stage k. -/
theorem state_not_rolled_back {σ : Type} (act : Nat → σ → StepOutcome σ)
    (cp : Option (CheckpointData σ)) (s : σ) (f k : Nat)
    (h : (Pipeline.run act cp s f).exit = .raised k) :
    ∃ sPre, act k sPre = .err (Pipeline.run act cp s f).state ∧
      (Pipeline.run act cp s f).cp =
        some ⟨k - 1, (Pipeline.run act cp s f).state⟩ := by
  rw [run_eq_stepsFrom] at h ⊢
  obtain ⟨t, sPre, hcp, hact, htr, hkmem⟩ := runFrom_raised act _ cp s k h
  exact ⟨sPre, hact, hcp⟩

/-- Closed instance of state_not_rolled_back: stage 3 of exActErr3 raises
after mutating the state from 2 to 102; the saved checkpoint pairs counter
2 with the mutated state 102. -/
theorem state_not_rolled_back_witness :
    (∃ sPre, exActErr3 3 sPre =
        .err (Pipeline.run exActErr3 (none : Option (CheckpointData Nat)) 0 0).state ∧
      (Pipeline.run exActErr3 (none : Option (CheckpointData Nat)) 0 0).cp =
        some ⟨2, (Pipeline.run exActErr3 (none : Option (CheckpointData Nat)) 0 0).state⟩) ∧
    (Pipeline.run exActErr3 (none : Option (CheckpointData Nat)) 0 0).state = 102 ∧
    (Pipeline.run exActErr3 (none : Option (CheckpointData Nat)) 0 0).cp = some ⟨2, 102⟩ :=
  ⟨state_not_rolled_back exActErr3 none 0 0 3 (by decide), by decide, by decide⟩

/-! ## Claim theorems: Jaccard similarity and confirm gate -/

theorem jaccard_nonneg (a b : Finset String) : 0 ≤ jaccard a b := by
  unfold jaccard
  split
  · exact le_refl 0
  · split
    · positivity
    · exact le_refl 0

theorem jaccard_le_one (a b : Finset String) : jaccard a b ≤ 1 := by
  unfold jaccard
  split
  · exact zero_le_one
  · split
    · rename_i hpos
      rw [div_le_one (by exact_mod_cast hpos)]
      exact_mod_cast Finset.card_le_card Finset.inter_subset_union
    · exact zero_le_one

theorem jaccard_self {a : Finset String} (h : a ≠ ∅) : jaccard a a = 1 := by
  unfold jaccard
  rw [if_neg (by simp [h])]
  rw [Finset.union_self, Finset.inter_self]
  have hc : 0 < a.card := Finset.card_pos.mpr (Finset.nonempty_iff_ne_empty.mpr h)
  rw [if_pos hc]
  exact div_self (by exact_mod_cast hc.ne')

theorem jaccard_inter_empty {a b : Finset String} (h : a ∩ b = ∅) :
    jaccard a b = 0 := by
  unfold jaccard
  split
  · rfl
  · split
    · rw [h]
      simp
    · rfl

theorem jaccard_empty {a b : Finset String} (h : a = ∅ ∨ b = ∅) :
    jaccard a b = 0 := by
  unfold jaccard
  rw [if_pos h]

/-- Claim C6 (Jaccard similarity properties): the cache matcher similarity
of any two prompts lies in [0, 1]; a prompt with a non-empty token set has
self-similarity exactly 1; two prompts sharing no token longer than two
characters have similarity 0; and an empty token set on either side gives
0 (the division is guarded, never by zero). -/
theorem jaccard_similarity_properties (p q : String) :
    (0 ≤ jaccard (tokenize p) (tokenize q) ∧ jaccard (tokenize p) (tokenize q) ≤ 1) ∧
    (tokenize p ≠ ∅ → jaccard (tokenize p) (tokenize p) = 1) ∧
    (tokenize p ∩ tokenize q = ∅ → jaccard (tokenize p) (tokenize q) = 0) ∧
    (tokenize p = ∅ ∨ tokenize q = ∅ → jaccard (tokenize p) (tokenize q) = 0) :=
  ⟨⟨jaccard_nonneg _ _, jaccard_le_one _ _⟩,
   fun h => jaccard_self h,
   fun h => jaccard_inter_empty h,
   fun h => jaccard_empty h⟩

/-- Closed instance of jaccard_similarity_properties: the spec's concrete
scenario: self-similarity of "red bicycle on street" is 1, and its
similarity with "red bicycle in park" is 1/2 (intersection 2, union 4). -/
theorem jaccard_similarity_properties_witness :
    jaccard (tokenize "red bicycle on street") (tokenize "red bicycle on street") = 1 ∧
    jaccard (tokenize "red bicycle on street") (tokenize "red bicycle in park") = 1 / 2 :=
  ⟨(jaccard_similarity_properties "red bicycle on street" "red bicycle in park").2.1
      (by decide),
   by
    have hne : ¬(tokenize "red bicycle on street" = ∅ ∨
        tokenize "red bicycle in park" = ∅) := by decide
    have h1 : (tokenize "red bicycle on street" ∩
        tokenize "red bicycle in park").card = 2 := by decide
    have h2 : (tokenize "red bicycle on street" ∪
        tokenize "red bicycle in park").card = 4 := by decide
    unfold jaccard
    rw [if_neg hne, if_pos (by rw [h2]; norm_num), h1, h2]
    norm_num⟩

/-- Claim C9 (confirm-gate fail-safe default): an input line consisting
only of whitespace (the empty line included) makes _cli_confirm decline,
and it accepts exactly when the stripped, lower-cased answer is the string
y or the string yes. -/
theorem cli_confirm_fail_safe (input : List Char) :
    ((∀ c ∈ input, pyIsSpaceChar c = true) → cliConfirmAnswer input = false) ∧
    (cliConfirmAnswer input = true ↔
      pyLower (pyStrip input) = ['y'] ∨ pyLower (pyStrip input) = ['y', 'e', 's']) := by
  constructor
  · intro hsp
    have h1 : pyStrip input = [] := by
      unfold pyStrip
      rw [List.dropWhile_eq_nil_iff.mpr hsp]
      simp
    simp [cliConfirmAnswer, h1, pyLower]
  · simp [cliConfirmAnswer]

/-- Closed instance of cli_confirm_fail_safe: a whitespace-only answer is
a decline; "  YES " is an accept. -/
theorem cli_confirm_fail_safe_witness :
    cliConfirmAnswer ("   ".data) = false ∧ cliConfirmAnswer ("  YES ".data) = true :=
  ⟨(cli_confirm_fail_safe ("   ".data)).1 (by decide), by decide⟩

/-! ## Claim theorems: batch partition -/

theorem countBatches_succ (N B : Nat) (hB : 1 ≤ B) (hN : 1 ≤ N) :
    (N + B - 1) / B = ((N - B) + B - 1) / B + 1 := by
  rcases le_or_lt N B with h | h
  · have h1 : N - B = 0 := by omega
    rw [h1]
    have h2 : N + B - 1 = (N - 1) + B := by omega
    rw [h2, Nat.add_div_right _ (by omega)]
    have h3 : (N - 1) / B = 0 := Nat.div_eq_of_lt (by omega)
    have h4 : (0 + B - 1) / B = 0 := Nat.div_eq_of_lt (by omega)
    omega
  · have h2 : N + B - 1 = ((N - B) + B - 1) + B := by omega
    rw [h2, Nat.add_div_right _ (by omega)]

theorem pyBatches_nil {α : Type} (B : Nat) : pyBatches B ([] : List α) = [] := by
  unfold pyBatches rangeStep
  have h0 : (List.length ([] : List α) + B - 1) / B = 0 := by
    rcases Nat.eq_zero_or_pos B with hb | hb
    · simp [hb]
    · exact Nat.div_eq_of_lt (by simp; omega)
  rw [h0]
  rfl

theorem pyBatches_cons {α : Type} (B : Nat) (hB : 1 ≤ B) (l : List α) (hl : l ≠ []) :
    pyBatches B l = l.take B :: pyBatches B (l.drop B) := by
  unfold pyBatches rangeStep
  have hN : 1 ≤ l.length := List.length_pos.mpr hl
  rw [List.length_drop, countBatches_succ l.length B hB hN, List.range_succ_eq_map]
  simp only [List.map_cons, List.map_map, Nat.zero_mul, List.drop_zero]
  congr 1
  apply List.map_congr_left
  intro i _
  simp only [Function.comp_apply]
  rw [List.drop_drop, Nat.succ_mul]
  congr 2
  omega

theorem pyBatches_flatten {α : Type} (B : Nat) (hB : 1 ≤ B) :
    ∀ (n : Nat) (l : List α), l.length ≤ n → (pyBatches B l).flatten = l := by
  intro n
  induction n with
  | zero =>
    intro l hl
    have : l = [] := List.length_eq_zero.mp (by omega)
    subst this
    rw [pyBatches_nil]
    rfl
  | succ n ih =>
    intro l hl
    rcases eq_or_ne l [] with h | h
    · subst h
      rw [pyBatches_nil]
      rfl
    · rw [pyBatches_cons B hB l h]
      have hlen : (l.drop B).length ≤ n := by
        rw [List.length_drop]
        have : 1 ≤ l.length := List.length_pos.mpr h
        omega
      simp only [List.flatten_cons, ih (l.drop B) hlen]
      exact List.take_append_drop B l

/-- Claim C7 (batch partition completeness): for any batch size B >= 1 the
slices scenes[0:B], scenes[B:2B], ... taken by generate_all concatenate
back to the input in order, every element (hence every scene id) occurs
across the batches exactly as often as in the input, and the batch
boundaries depend only on the input length, not its content. -/
theorem batch_partition_completeness {α : Type} [DecidableEq α] (B : Nat)
    (l : List α) (hB : 1 ≤ B) :
    (pyBatches B l).flatten = l ∧
    (∀ x : α, (pyBatches B l).flatten.count x = l.count x) ∧
    (∀ l₂ : List α, l.length = l₂.length →
      (pyBatches B l).map List.length = (pyBatches B l₂).map List.length) := by
  have hj : (pyBatches B l).flatten = l := pyBatches_flatten B hB l.length l (le_refl _)
  refine ⟨hj, fun x => by rw [hj], ?_⟩
  intro l₂ hlen
  unfold pyBatches rangeStep
  rw [← hlen]
  simp only [List.map_map]
  apply List.map_congr_left
  intro i _
  simp only [Function.comp_apply, List.length_take, List.length_drop, hlen]

/-- Closed instance of batch_partition_completeness: 25 scene ids at the
default batch size 10 split into chunks of sizes 10, 10, 5 and concatenate
back to the input. -/
theorem batch_partition_completeness_witness :
    (pyBatches 10 (List.range 25)).flatten = List.range 25 ∧
    (pyBatches 10 (List.range 25)).map List.length = [10, 10, 5] :=
  ⟨(batch_partition_completeness 10 (List.range 25) (by decide)).1, by decide⟩

/-! ## Claim theorems: find_similar -/

theorem mem_matchRows {pw : Finset String} {th : ℚ} {x : SimHit} {rows : List CacheRow} :
    x ∈ matchRows pw th rows ↔
      ∃ row ∈ rows, row.onDisk = true ∧ th ≤ jaccard pw (tokenize row.prompt) ∧
        x = ⟨jaccard pw (tokenize row.prompt), row.image_path, row.prompt⟩ := by
  unfold matchRows
  rw [List.mem_filterMap]
  constructor
  · rintro ⟨row, hrow, hfn⟩
    by_cases hd : row.onDisk = true
    · rw [if_pos hd] at hfn
      by_cases hth : th ≤ jaccard pw (tokenize row.prompt)
      · rw [if_pos hth] at hfn
        exact ⟨row, hrow, hd, hth, (Option.some_inj.mp hfn).symm⟩
      · rw [if_neg hth] at hfn
        cases hfn
    · rw [if_neg hd] at hfn
      cases hfn
  · rintro ⟨row, hrow, hd, hth, rfl⟩
    exact ⟨row, hrow, by rw [if_pos hd, if_pos hth]⟩

theorem filter_orderedInsert_sim (x : SimHit) (c : ℚ) :
    ∀ l : List SimHit,
      (List.orderedInsert (fun a b => b.similarity ≤ a.similarity) x l).filter
          (fun z => decide (z.similarity = c)) =
        (x :: l).filter (fun z => decide (z.similarity = c)) := by
  intro l
  induction l with
  | nil => rfl
  | cons y ys ih =>
    by_cases hxy : y.similarity ≤ x.similarity
    · rw [List.orderedInsert, if_pos hxy]
    · rw [List.orderedInsert, if_neg hxy]
      have hlt : x.similarity < y.similarity := lt_of_not_le hxy
      by_cases hx : x.similarity = c
      · have hy : ¬ y.similarity = c := by
          intro hy
          rw [hx, hy] at hlt
          exact lt_irrefl c hlt
        simp only [List.filter_cons, hx, hy, decide_True, decide_False,
          decide_eq_true_eq, if_pos, if_neg, ih]
        simp [hx, hy]
      · simp only [List.filter_cons, ih]
        simp [hx]

theorem filter_sortBySimDesc (l : List SimHit) (c : ℚ) :
    (sortBySimDesc l).filter (fun z => decide (z.similarity = c)) =
      l.filter (fun z => decide (z.similarity = c)) := by
  unfold sortBySimDesc
  induction l with
  | nil => rfl
  | cons x xs ih =>
    rw [List.insertionSort, filter_orderedInsert_sim]
    simp only [List.filter_cons, ih]

/-- Claim C8 (find_similar contract): every returned entry comes from a
fetched row whose artifact file still exists, carries that row's path and
prompt with its Jaccard similarity to the query, and meets the threshold;
at most limit entries are returned, in descending similarity order; when
the matches fit within limit, every surviving row at or above the
threshold appears in the result; and the descending sort is stable, so
equal-similarity ties keep the deterministic fetched-row order (the
insertion-order-based order the store returns). -/
theorem find_similar_contract (rows : List CacheRow) (prompt : String)
    (threshold : ℚ) (limit : Nat) :
    (∀ x ∈ findSimilar rows prompt threshold limit,
      threshold ≤ x.similarity ∧
      ∃ row ∈ rows, row.onDisk = true ∧
        x = ⟨jaccard (tokenize prompt) (tokenize row.prompt), row.image_path,
          row.prompt⟩) ∧
    (findSimilar rows prompt threshold limit).length ≤ limit ∧
    List.Pairwise (fun a b => b.similarity ≤ a.similarity)
      (findSimilar rows prompt threshold limit) ∧
    ((matchRows (tokenize prompt) threshold rows).length ≤ limit →
      ∀ row ∈ rows, row.onDisk = true →
        threshold ≤ jaccard (tokenize prompt) (tokenize row.prompt) →
        (⟨jaccard (tokenize prompt) (tokenize row.prompt), row.image_path,
          row.prompt⟩ : SimHit) ∈ findSimilar rows prompt threshold limit) ∧
    (∀ c : ℚ,
      (sortBySimDesc (matchRows (tokenize prompt) threshold rows)).filter
          (fun z => decide (z.similarity = c)) =
        (matchRows (tokenize prompt) threshold rows).filter
          (fun z => decide (z.similarity = c))) := by
  refine ⟨?_, ?_, ?_, ?_, fun c => filter_sortBySimDesc _ c⟩
  · intro x hx
    have hx1 : x ∈ sortBySimDesc (matchRows (tokenize prompt) threshold rows) :=
      List.take_subset _ _ hx
    have hx2 : x ∈ matchRows (tokenize prompt) threshold rows := by
      unfold sortBySimDesc at hx1
      exact (List.mem_insertionSort _).mp hx1
    obtain ⟨row, hrow, hd, hth, hxeq⟩ := mem_matchRows.mp hx2
    refine ⟨?_, row, hrow, hd, hxeq⟩
    rw [hxeq]
    exact hth
  · unfold findSimilar
    rw [List.length_take]
    exact min_le_left _ _
  · unfold findSimilar
    apply List.Pairwise.sublist (List.take_sublist _ _)
    unfold sortBySimDesc
    exact List.sorted_insertionSort _ _
  · intro hlen row hrow hd hth
    have hm : (⟨jaccard (tokenize prompt) (tokenize row.prompt), row.image_path,
        row.prompt⟩ : SimHit) ∈ matchRows (tokenize prompt) threshold rows :=
      mem_matchRows.mpr ⟨row, hrow, hd, hth, rfl⟩
    unfold findSimilar
    rw [List.take_of_length_le]
    · unfold sortBySimDesc
      exact (List.mem_insertionSort _).mpr hm
    · unfold sortBySimDesc
      rw [List.length_insertionSort]
      exact hlen

/-- Closed instance of find_similar_contract: querying the example rows
with "red bicycle on street" at threshold 0: the missing-file row is
skipped, the exact match (similarity 1) is returned first, the unrelated
on-disk row (similarity 0) second. -/
theorem find_similar_contract_witness :
    findSimilar exRows "red bicycle on street" 0 5 =
      [⟨1, "img1", "red bicycle on street"⟩, ⟨0, "img3", "blue car"⟩] ∧
    (⟨jaccard (tokenize "red bicycle on street") (tokenize "red bicycle on street"),
        "img1", "red bicycle on street"⟩ : SimHit) ∈
      findSimilar exRows "red bicycle on street" 0 5 := by
  have h1 : jaccard (tokenize "red bicycle on street") (tokenize "blue car") = 0 :=
    jaccard_inter_empty (by decide)
  have h2 : jaccard (tokenize "red bicycle on street")
      (tokenize "red bicycle on street") = 1 := jaccard_self (by decide)
  have hm : matchRows (tokenize "red bicycle on street") 0 exRows =
      [⟨0, "img3", "blue car"⟩, ⟨1, "img1", "red bicycle on street"⟩] := by
    unfold matchRows exRows
    simp only [List.filterMap_cons, List.filterMap_nil]
    rw [h1, h2]
    norm_num
  constructor
  · unfold findSimilar
    rw [hm]
    unfold sortBySimDesc
    simp only [List.insertionSort, List.orderedInsert]
    norm_num
  · exact (find_similar_contract exRows "red bicycle on street" 0 5).2.2.2.1
      (by rw [hm]; norm_num)
      ⟨"red bicycle on street", "img1", true⟩ (by simp [exRows]) rfl
      (by rw [h2]; norm_num)

/-! ## Claim theorems: shorts builder -/

theorem reassignFrom_ids :
    ∀ (l : List Scene) (i : Nat),
      (reassignFrom i l).map (fun s => s.scene_id) = List.range' (i + 1) l.length := by
  intro l
  induction l with
  | nil => intro i; rfl
  | cons s rest ih =>
    intro i
    simp only [reassignFrom, List.map_cons, List.length_cons, List.range'_succ, ih]

theorem reassignFrom_length :
    ∀ (l : List Scene) (i : Nat), (reassignFrom i l).length = l.length := by
  intro l
  induction l with
  | nil => intro i; rfl
  | cons s rest ih =>
    intro i
    simp only [reassignFrom, List.length_cons, ih]

/-- Claim C3 (code bug, shorts scene-id retention): build_shorts_scenario
does NOT retain the original long-form scene ids: _reassign_ids renumbers
scene_id from 1 by output position.  Evaluated at a two-scene long-form
scenario whose hook scene carries long-form scene_id 2, the shorts output
puts that scene first with scene_id 1 and the core scene (long-form id 1)
second with scene_id 2, so recovering the long-form audio/image for a
shorts scene by indexing with its id (as the scene_id-based filtering in
video/shorts_composer.py does) picks the wrong asset.  The general
conjunct proves the ids of any shorts scenario are always the positions
1..n, independent of the input ids. -/
theorem shorts_scene_id_renumbered :
    (buildShortsScenario exScenesC3).map (fun s => (s.scene_id, s.narration)) =
      [(1, "B"), (2, "A")] ∧
    (∀ scenes : List Scene,
      (buildShortsScenario scenes).map (fun s => s.scene_id) =
        List.range' 1 (buildShortsScenario scenes).length) := by
  constructor
  · unfold buildShortsScenario
    rw [if_neg (by decide)]
    have hsel : selectScenes exScenesC3 =
        [⟨2, some "hook", "B", some 3, "pb"⟩, ⟨1, some "core", "A", some 3, "pa"⟩] := by
      unfold selectScenes stageOrder exScenesC3
      norm_num +decide [stageOf, stageBudget, List.insertionSort, List.orderedInsert]
    rw [hsel]
    have hcap : capToDuration 60
        [⟨2, some "hook", "B", some 3, "pb"⟩, ⟨1, some "core", "A", some 3, "pa"⟩] 0 =
        [⟨2, some "hook", "B", some 3, "pb"⟩, ⟨1, some "core", "A", some 3, "pa"⟩] := by
      norm_num [capToDuration, durOf]
    rw [hcap]
    rfl
  · intro scenes
    unfold buildShortsScenario
    split
    · rfl
    · unfold reassignIds
      rw [reassignFrom_ids, reassignFrom_length]

/-! ## Claim theorems: batch failure isolation -/

theorem lookupId_parallel_not_mem {P : Type} (gen : GenBehaviour P) :
    ∀ (l : List GenScene) (k : Nat), k ∉ l.map (fun s => s.scene_id) →
      lookupId k (processParallel gen l) = none := by
  intro l
  induction l with
  | nil => intro k _; rfl
  | cons s rest ih =>
    intro k hk
    simp only [List.map_cons, List.mem_cons, not_or] at hk
    cases hgen : gen s with
    | error e =>
      simp only [processParallel, hgen]
      exact ih k hk.2
    | ok op =>
      cases op with
      | none =>
        simp only [processParallel, hgen]
        exact ih k hk.2
      | some p =>
        simp only [processParallel, hgen, lookupId]
        rw [if_neg (fun h => hk.1 h.symm)]
        exact ih k hk.2

theorem lookupId_parallel_of_mem {P : Type} (gen : GenBehaviour P) :
    ∀ (l : List GenScene), (l.map (fun s => s.scene_id)).Nodup →
      ∀ s ∈ l,
        (∀ p, gen s = .ok (some p) →
          lookupId s.scene_id (processParallel gen l) = some p) ∧
        ((∀ p, gen s ≠ .ok (some p)) →
          lookupId s.scene_id (processParallel gen l) = none) := by
  intro l
  induction l with
  | nil => intro _ s hs; cases hs
  | cons t rest ih =>
    intro hnd s hs
    simp only [List.map_cons, List.nodup_cons] at hnd
    rcases List.mem_cons.mp hs with rfl | hsrest
    · constructor
      · intro p hgen
        simp only [processParallel, hgen, lookupId, if_pos rfl]
        simp
      · intro hne
        cases hgen : gen s with
        | error e =>
          simp only [processParallel, hgen]
          exact lookupId_parallel_not_mem gen rest s.scene_id hnd.1
        | ok op =>
          cases op with
          | none =>
            simp only [processParallel, hgen]
            exact lookupId_parallel_not_mem gen rest s.scene_id hnd.1
          | some p => exact absurd hgen (hne p)
    · have hid : t.scene_id ≠ s.scene_id := by
        intro h
        exact hnd.1 (h ▸ List.mem_map_of_mem (fun s => s.scene_id) hsrest)
      have hrec := ih hnd.2 s hsrest
      cases hgen : gen t with
      | error e =>
        simp only [processParallel, hgen]
        exact hrec
      | ok op =>
        cases op with
        | none =>
          simp only [processParallel, hgen]
          exact hrec
        | some q =>
          simp only [processParallel, hgen, lookupId]
          rw [if_neg hid]
          exact hrec

theorem lookupId_sequential_not_mem {P : Type} (gen : GenBehaviour P) :
    ∀ (l : List GenScene) (m : List (Nat × P)) (k : Nat),
      processSequential gen l = .ok m → k ∉ l.map (fun s => s.scene_id) →
      lookupId k m = none := by
  intro l
  induction l with
  | nil =>
    intro m k hm _
    cases hm
    rfl
  | cons s rest ih =>
    intro m k hm hk
    simp only [List.map_cons, List.mem_cons, not_or] at hk
    cases hgen : gen s with
    | error e =>
      simp only [processSequential, hgen] at hm
      cases hm
    | ok op =>
      cases op with
      | none =>
        simp only [processSequential, hgen] at hm
        exact ih m k hm hk.2
      | some p =>
        simp only [processSequential, hgen] at hm
        cases hrest : processSequential gen rest with
        | error e => rw [hrest] at hm; cases hm
        | ok m' =>
          rw [hrest] at hm
          cases hm
          simp only [lookupId]
          rw [if_neg (fun h => hk.1 h.symm)]
          exact ih m' k hrest hk.2

theorem processSequential_no_error {P : Type} (gen : GenBehaviour P) :
    ∀ (l : List GenScene), (l.map (fun s => s.scene_id)).Nodup →
      (∀ s ∈ l, ∀ e, gen s ≠ .error e) →
      ∃ m, processSequential gen l = .ok m ∧
        ∀ s ∈ l,
          (∀ p, gen s = .ok (some p) → lookupId s.scene_id m = some p) ∧
          (gen s = .ok none → lookupId s.scene_id m = none) := by
  intro l
  induction l with
  | nil => intro _ _; exact ⟨[], rfl, fun s hs => absurd hs (List.not_mem_nil s)⟩
  | cons t rest ih =>
    intro hnd hnoerr
    simp only [List.map_cons, List.nodup_cons] at hnd
    have hrest := ih hnd.2 (fun s hs => hnoerr s (List.mem_cons_of_mem t hs))
    obtain ⟨m', hm', hchar⟩ := hrest
    cases hgen : gen t with
    | error e => exact absurd hgen (hnoerr t (List.mem_cons_self t rest) e)
    | ok op =>
      cases op with
      | none =>
        refine ⟨m', by simp only [processSequential, hgen]; exact hm', ?_⟩
        intro s hs
        rcases List.mem_cons.mp hs with rfl | hsrest
        · constructor
          · intro p hp
            rw [hgen] at hp
            cases hp
          · intro _
            exact lookupId_sequential_not_mem gen rest m' s.scene_id hm' hnd.1
        · exact hchar s hsrest
      | some p =>
        refine ⟨(t.scene_id, p) :: m',
          by simp only [processSequential, hgen, hm', Except.map], ?_⟩
        intro s hs
        rcases List.mem_cons.mp hs with rfl | hsrest
        · constructor
          · intro q hq
            rw [hgen] at hq
            cases hq
            simp only [lookupId, if_pos rfl]
            simp
          · intro hq
            rw [hgen] at hq
            cases hq
        · have hid : t.scene_id ≠ s.scene_id := by
            intro h
            exact hnd.1 (h ▸ List.mem_map_of_mem (fun s => s.scene_id) hsrest)
          constructor
          · intro q hq
            simp only [lookupId]
            rw [if_neg hid]
            exact (hchar s hsrest).1 q hq
          · intro hq
            simp only [lookupId]
            rw [if_neg hid]
            exact (hchar s hsrest).2 hq

theorem processSequential_error {P : Type} (gen : GenBehaviour P) :
    ∀ (l : List GenScene), (∃ s ∈ l, ∃ e, gen s = .error e) →
      ∃ e, processSequential gen l = .error e := by
  intro l
  induction l with
  | nil => rintro ⟨s, hs, _⟩; cases hs
  | cons t rest ih =>
    rintro ⟨s, hs, e, hgen⟩
    rcases List.mem_cons.mp hs with rfl | hsrest
    · exact ⟨e, by simp only [processSequential, hgen]⟩
    · cases hgent : gen t with
      | error e' => exact ⟨e', by simp only [processSequential, hgent]⟩
      | ok op =>
        obtain ⟨e', he'⟩ := ih ⟨s, hsrest, e, hgen⟩
        cases op with
        | none =>
          exact ⟨e', by simp only [processSequential, hgent]; exact he'⟩
        | some p =>
          refine ⟨e', ?_⟩
          simp only [processSequential, hgent, he', Except.map]

/-- Claim C4 as stated is false for the local-sequential engine mode: in
the two-item example batch, generating item 1 raises; _process_sequential
has no try/except around _generate_one, so the exception propagates out of
the batch (the call produces no result mapping at all) and the surviving
sibling scene 2 is lost with it, contradicting the claimed absorption in
"both engine modes". -/
theorem partial_batch_failure_counterexample :
    processSequential exGenFail1 exBatch = .error () ∧
    ¬ ∃ m : List (Nat × Nat), processSequential exGenFail1 exBatch = .ok m ∧
        lookupId 2 m = some 7 := by
  refine ⟨rfl, ?_⟩
  rintro ⟨m, hm, _⟩
  rw [show processSequential exGenFail1 exBatch = .error () from rfl] at hm
  cases hm

/-- Claim C4 amended (partial batch failure isolation as implemented): in
remote-parallel mode (_process_parallel), for any completion order of a
batch with distinct scene ids, an item that raises is absorbed and omitted
while every sibling that succeeds appears in the mapping with its path; in
local-sequential mode (_process_sequential), an item that fails by
returning no path is omitted while its siblings continue, but an item that
raises makes the whole call propagate the exception and abort the batch —
only the parallel path absorbs exceptions. -/
theorem partial_batch_failure_isolation_amended {P : Type} (gen : GenBehaviour P)
    (batch order : List GenScene) (hperm : order.Perm batch)
    (hnodup : (batch.map (fun s => s.scene_id)).Nodup)
    (_hsize : 2 ≤ batch.length) :
    (∀ s ∈ batch, ∀ e, gen s = .error e →
      lookupId s.scene_id (processParallel gen order) = none) ∧
    (∀ s ∈ batch, ∀ p, gen s = .ok (some p) →
      lookupId s.scene_id (processParallel gen order) = some p) ∧
    ((∀ s ∈ batch, ∀ e, gen s ≠ .error e) →
      ∃ m, processSequential gen batch = .ok m ∧
        ∀ s ∈ batch,
          (∀ p, gen s = .ok (some p) → lookupId s.scene_id m = some p) ∧
          (gen s = .ok none → lookupId s.scene_id m = none)) ∧
    ((∃ s ∈ batch, ∃ e, gen s = .error e) →
      ∃ e, processSequential gen batch = .error e) := by
  have hondnodup : (order.map (fun s => s.scene_id)).Nodup :=
    ((hperm.map (fun s => s.scene_id)).nodup_iff).mpr hnodup
  refine ⟨?_, ?_, processSequential_no_error gen batch hnodup,
    processSequential_error gen batch⟩
  · intro s hs e hgen
    have hso : s ∈ order := hperm.mem_iff.mpr hs
    refine (lookupId_parallel_of_mem gen order hondnodup s hso).2 ?_
    intro p hp
    rw [hgen] at hp
    cases hp
  · intro s hs p hgen
    have hso : s ∈ order := hperm.mem_iff.mpr hs
    exact (lookupId_parallel_of_mem gen order hondnodup s hso).1 p hgen

/-- Closed instance of partial_batch_failure_isolation_amended: with
scene 1 raising and scene 2 succeeding, the parallel mapping (any
completion order, here reversed) omits 1 and keeps 2 with its path, while
the sequential call propagates the exception. -/
theorem partial_batch_failure_isolation_amended_witness :
    lookupId 1 (processParallel exGenFail1 [⟨2, "p2"⟩, ⟨1, "p1"⟩]) = none ∧
    lookupId 2 (processParallel exGenFail1 [⟨2, "p2"⟩, ⟨1, "p1"⟩]) = some 7 ∧
    (∃ e, processSequential exGenFail1 exBatch = .error e) :=
  ⟨(partial_batch_failure_isolation_amended exGenFail1 exBatch
      [⟨2, "p2"⟩, ⟨1, "p1"⟩] (by decide) (by decide) (by decide)).1
      ⟨1, "p1"⟩ (by decide) () rfl,
   (partial_batch_failure_isolation_amended exGenFail1 exBatch
      [⟨2, "p2"⟩, ⟨1, "p1"⟩] (by decide) (by decide) (by decide)).2.1
      ⟨2, "p2"⟩ (by decide) 7 rfl,
   (partial_batch_failure_isolation_amended exGenFail1 exBatch
      [⟨2, "p2"⟩, ⟨1, "p1"⟩] (by decide) (by decide) (by decide)).2.2.2
      ⟨⟨1, "p1"⟩, by decide, (), rfl⟩⟩
